import Mathlib

/-!
# Verification of the GIMI-MUI mod registry logic

A shallow embedding of the core logic of `GIMI-MUI.py`: directory scanning
(`populateModLists`), enable/disable toggling by directory rename (`moveMods`),
merge-order computation (`getModOrder`), subprocess invocation (`runScript`)
and the merge action (`runMerge`).  Strings are modelled as `List Char`;
directory trees as a rose tree `DirTree`; the filesystem and subprocess
behaviour are supplied as oracle parameters where the code performs I/O.
-/

namespace GIMI

/-- Python strings are modelled as lists of characters. -/
abbrev Str := List Char

/-- Conversion from Lean string literals into the model. -/
def str (s : String) : Str := s.toList

/-- Path separator (`os.path.join` on a POSIX system). -/
def sep : Str := str "/"

/-- The disable marker used throughout `GIMI-MUI.py` (`prefix = "DISABLED"`). -/
def DISABLED : Str := str "DISABLED"

/-- Python `sub in s` (substring containment). -/
def strContains (s sub : Str) : Bool := decide (sub <:+: s)

/-- Python `s.startswith(pre)`. -/
def startsW (s pre : Str) : Bool := pre.isPrefixOf s

/-- Python `s.endswith(suf)`. -/
def endsW (s suf : Str) : Bool := suf.isSuffixOf s

/-- Python `s.lower()` (ASCII suffices for the strings involved). -/
def lower (s : Str) : Str := s.map Char.toLower

/-- Python `s.upper()`. -/
def upper (s : Str) : Str := s.map Char.toUpper

/-- Python `s[:-n]`: for `n = 0` this is `s[:0] = ""`, otherwise it drops the
last `n` characters. -/
def pySliceToNeg (s : Str) (n : Nat) : Str :=
  if n = 0 then [] else s.take (s.length - n)

/-- `os.path.basename`: the part of the path after the last separator. -/
def basename (p : Str) : Str := (p.reverse.takeWhile (fun c => c ≠ '/')).reverse

/-- `os.path.splitext(f)[1] == ".ini"`: the file ends in `".ini"` and the last
dot is not part of a run of leading dots (so `".ini"` itself has no extension). -/
def extIsIni (f : Str) : Bool :=
  endsW f (str ".ini") && (f.take (f.length - 4)).any (fun c => c ≠ '.')

/-- Python `str(n)` for a natural number. -/
def natStr (n : Nat) : Str := (toString n).toList

/-- Python `" ".join(map(str, order))`. -/
def joinSpace (order : List Nat) : Str :=
  ((order.map natStr).intersperse (str " ")).flatten

/-- The stdin payload built by `Main.runMerge` (line 638):
`"\n" + " ".join(map(str, mod_order)) + "\n"`. -/
def mergeStdin (order : List Nat) : Str := str "\n" ++ joinSpace order ++ str "\n"

/-! ## Directory trees and the scanning walk -/

/-- A directory on disk: its base name, the names of its immediate files, and
its immediate subdirectories.  `os.walk` on such a tree visits the node itself
first and then its subdirectories in order (top-down). -/
inductive DirTree where
  | node (name : Str) (files : List Str) (subdirs : List DirTree)

def DirTree.name : DirTree → Str
  | .node n _ _ => n

def DirTree.files : DirTree → List Str
  | .node _ f _ => f

def DirTree.subdirs : DirTree → List DirTree
  | .node _ _ s => s

/-- `populateModLists` line 232: `"BufferValues" in root or "ShaderCache" in
root or "ShaderFixes" in root` (case-sensitive substring test on the full
path). -/
def skipCache (path : Str) : Bool :=
  strContains path (str "BufferValues") || strContains path (str "ShaderCache") ||
    strContains path (str "ShaderFixes")

/-- Whether the file loop of `populateModLists` finds a marker: some file ends
in `".ini"` (lines 234-235). -/
def hasIni (files : List Str) : Bool := files.any (fun f => endsW f (str ".ini"))

/-- `populateModLists` finds a marker in a visited directory iff the directory
is not skipped as a cache directory and has a file ending in `".ini"`. -/
def foundMarker (q : Str) (t : DirTree) : Bool := !skipCache q && hasIni t.files

/-- One entry of the traversal trace of `populateModLists`'s `os.walk` loop:
the position of the visited directory in the tree (child indices from the
root), its full path, its base name, and whether a marker file was found in it
(in which case the walk prunes its subdirectories via `dirs[:] = []`). -/
structure Visit where
  pos : List Nat
  path : Str
  dname : Str
  marker : Bool
deriving DecidableEq, Repr

mutual

/-- The traversal of `populateModLists` (lines 231-246): visit the directory
`t` whose full path is `q`; if a marker file is found (`foundMarker`), classify
it and prune (`dirs[:] = []`), otherwise continue into the subdirectories. -/
def walkTrace (q : Str) (pos : List Nat) (t : DirTree) : List Visit :=
  ⟨pos, q, t.name, foundMarker q t⟩ ::
    (if foundMarker q t then [] else walkKids q pos 0 t.subdirs)
termination_by sizeOf t
decreasing_by cases t <;> simp [DirTree.subdirs]

/-- Traversal of the subdirectory list, in order, numbering children from `i`. -/
def walkKids (q : Str) (pos : List Nat) (i : Nat) (l : List DirTree) : List Visit :=
  match l with
  | [] => []
  | c :: cs => walkTrace (q ++ sep ++ c.name) (pos ++ [i]) c ++ walkKids q pos (i + 1) cs
termination_by sizeOf l
decreasing_by all_goals simp <;> omega
end

/-- `Main.populateModLists` (lines 214-258): the registry produced by scanning
the `Mods` tree `t` whose full path is `q`.  Each directory in which the walk
found a marker file is recorded under its untouched base name
(`os.path.basename(root)`, line 236), in the disabled list if that name starts
with the literal `"DISABLED"` (line 239) and in the enabled list otherwise. -/
def populateModLists (q : Str) (t : DirTree) : List Str × List Str :=
  let vs := (walkTrace q [] t).filter (fun v => v.marker)
  ((vs.filter (fun v => !startsW v.dname DISABLED)).map Visit.dname,
   (vs.filter (fun v => startsW v.dname DISABLED)).map Visit.dname)

/-! ## The merge-order walk (`Main.getModOrder`, lines 578-596) -/

/-- Insertion-ordered dictionary with string keys, as Python's `dict`. -/
abbrev Dict := List (Str × Nat)

/-- Python `d[k] = v`: overwrite in place if the key is present, else append. -/
def dictInsert (d : Dict) (k : Str) (v : Nat) : Dict :=
  if d.any (fun p => p.1 == k) then d.map (fun p => if p.1 == k then (k, v) else p)
  else d ++ [(k, v)]

/-- Python `d[k]` as an optional lookup. -/
def dictLookup (d : Dict) (k : Str) : Option Nat :=
  (d.find? (fun p => p.1 == k)).map Prod.snd

/-- The file filter of `getModOrder`'s inner loop (lines 585-588): a file
leads to a `base_dict` assignment iff its lowered name contains neither
`"disabled"` nor the lowered `ignore` token (line 586, `continue`) and its
`splitext` extension is `".ini"` (line 588). -/
def passesIni (ignore f : Str) : Bool :=
  !(strContains (lower f) (str "disabled") || strContains (lower f) (lower ignore)) &&
    extIsIni f

mutual

/-- The keys assigned by the walk of `getModOrder` (lines 582-589), in
execution order: if the lowered full path of the visited directory contains
`"disabled"` its files are skipped (`continue`, line 583) but the walk still
descends (there is no pruning anywhere in `getModOrder`); otherwise every file
passing the filter triggers `base_dict[os.path.basename(root)] = len(base_dict)`,
i.e. contributes one assignment of the directory's base name. -/
def orderNames (ignore q : Str) (t : DirTree) : List Str :=
  (if strContains (lower q) (str "disabled") then []
   else (t.files.filter (passesIni ignore)).map (fun _ => t.name)) ++
    orderNamesKids ignore q t.subdirs
termination_by sizeOf t
decreasing_by cases t <;> simp [DirTree.subdirs]

/-- The assignments contributed by a list of sibling subdirectories. -/
def orderNamesKids (ignore q : Str) (l : List DirTree) : List Str :=
  match l with
  | [] => []
  | c :: cs => orderNames ignore (q ++ sep ++ c.name) c ++ orderNamesKids ignore q cs
termination_by sizeOf l
decreasing_by all_goals simp <;> omega
end

/-- One `base_dict[k] = len(base_dict)` assignment (line 589). -/
def insertName (d : Dict) (k : Str) : Dict := dictInsert d k d.length

/-- The `base_dict` built by `getModOrder` walking the tree `t` at path `q`:
the assignments of `orderNames` replayed in execution order on an initially
empty dict. -/
def baseDict (ignore q : Str) (t : DirTree) : Dict :=
  (orderNames ignore q t).foldl insertName []

/-- The selection loop of `getModOrder` (lines 591-592): look up each selected
name in `base_dict`, in the selection's order; a missing key raises `KeyError`
(a `LookupError`), modelled as `Except.error` carrying the missing name. -/
def lookupOrder (d : Dict) : List Str → Except Str (List Nat)
  | [] => .ok []
  | nm :: rest =>
    match dictLookup d nm with
    | some i => (lookupOrder d rest).map (fun l => i :: l)
    | none => .error nm

/-- `Main.getModOrder(path, ignore)` (lines 578-596): build the base dictionary
by walking `path`, then map the selection (the texts of `mergeModList`) to base
indices. -/
def getModOrder (path ignore : Str) (t : DirTree) (selection : List Str) :
    Except Str (List Nat) :=
  lookupOrder (baseDict ignore path t) selection

/-! ## Enabling / disabling mods (`Main.moveMods`, lines 329-382) -/

/-- A message appended to the log, tagged with the `Color` used. -/
inductive LogEntry where
  | info (msg : Str)
  | warn (msg : Str)
  | error (msg : Str)
deriving DecidableEq, Repr

/-- The in-memory registry state `moveMods` manipulates: the source list the
selected items are taken from, the target list they are moved to, and the log. -/
structure MoveState where
  source : List Str
  target : List Str
  log : List LogEntry
deriving DecidableEq, Repr

/-- The new directory name computed by `moveMods` (lines 357-362): disabling
prepends `"DISABLED"`, enabling drops `len("DISABLED")` characters. -/
def toggleName (source_status : Str) (item : Str) : Str :=
  if source_status == str "Enabled" then DISABLED ++ item
  else item.drop DISABLED.length

/-- `dest_path = mod_dir[:-len(item_name)] + new_item_name` (line 363). -/
def destPath (mod_dir item new_item : Str) : Str :=
  pySliceToNeg mod_dir item.length ++ new_item

/-- Rendering of the `OSError` raised by a failed `os.rename`: its message
carries the underlying cause and both paths. -/
def renderOSErr (cause src dst : Str) : Str :=
  cause ++ str ": '" ++ src ++ str "' -> '" ++ dst ++ str "'"

/-- The warning logged by `moveMods` when the post-rename name check fails
(line 373). -/
def nameMismatchWarn : Str := str "Detected issue with directory name. Please [Refresh Mod List]"

/-- The body of the loop of `moveMods` (lines 347-381) for one selected item.
`find` is the oracle for `findModDirectory`; `ren src dst` is the oracle for
`os.rename` (`none` = success, `some cause` = the raised `OSError`'s cause).
On a rename failure only an error is logged (lines 380-381); on success the
item is removed from the source list, the status message is logged, the name
mismatch check may log a warning (lines 372-373), and the new item is appended
to the target list. -/
def processItem (source_status : Str) (find : Str → Option Str)
    (ren : Str → Str → Option Str) (st : MoveState) (item : Str) : MoveState :=
  match find item with
  | none =>
    { st with log := st.log ++
        [.error (str "Error: Could not find directory for " ++ item ++
          str ". Please [ Refresh Mod List ]")] }
  | some mod_dir =>
    let new_item := toggleName source_status item
    let dest := destPath mod_dir item new_item
    match ren mod_dir dest with
    | some cause =>
      { st with log := st.log ++ [.error (str "Error: " ++ renderOSErr cause mod_dir dest)] }
    | none =>
      let msg := if source_status == str "Enabled"
        then str "➖► Disabled " ++ item
        else str "➕► Enabled " ++ new_item
      { source := st.source.erase item,
        target := st.target ++ [new_item],
        log := st.log ++ [.info msg] ++
          (if new_item ≠ basename dest then [.warn nameMismatchWarn] else []) }

/-- `Main.moveMods`: process every selected item in order; a failure for one
item does not stop the loop. -/
def moveMods (source_status : Str) (find : Str → Option Str)
    (ren : Str → Str → Option Str) (items : List Str) (st : MoveState) : MoveState :=
  items.foldl (processItem source_status find ren) st

/-! ## Subprocess invocation (`Main.runScript`, lines 474-525) -/

/-- Outcome of a `runScript` call: subprocess exit code 0, non-zero exit code,
or an exception caught by the `except` clause (line 521). -/
inductive RunOutcome where
  | success
  | errCode (code : Int)
  | caught (msg : Str)
deriving DecidableEq, Repr

/-- Result of a `runScript` call: its outcome, the data written to the
subprocess's standard input if one was spawned, and the sequence of `os.chdir`
calls performed (the last entry is the working directory on return). -/
structure RunScriptResult where
  outcome : RunOutcome
  stdinSent : Option Str
  chdirs : List Str
deriving DecidableEq, Repr

/-- The working directory after a `runScript` call, given the saved
`original_cwd` (line 484). -/
def RunScriptResult.finalCwd (origCwd : Str) (r : RunScriptResult) : Str :=
  r.chdirs.getLastD origCwd

/-- `Main.runScript(script_path, target_directory, args, input_data)`
(lines 474-525).  `isFile`/`isDir` are the oracles for `os.path.isfile` /
`os.path.isdir`; `exec` is the oracle for the spawned subprocess (`.ok code` =
it ran and exited with `code`, `.error msg` = `Popen`/`communicate` raised).
Note line 507 rebinds `input_data = "\n"` before `proc.communicate`, so the
subprocess always receives a single newline regardless of the `input_data`
argument.  The `finally` clause (lines 523-525) always performs
`os.chdir(original_cwd)`. -/
def runScript (isFile isDir : Str → Bool) (exec : Except Str Int)
    (origCwd script target : Str) (args : List Str) (input_data : Str) :
    RunScriptResult :=
  if !isFile script then
    ⟨.caught (str "Script path " ++ script ++ str " does not point to a valid file."),
      none, [origCwd]⟩
  else if !isDir target then
    ⟨.caught (str "Target directory " ++ target ++ str " does not point to a valid directory."),
      none, [origCwd]⟩
  else if endsW script (str ".py") || endsW script (str ".exe") then
    match exec with
    | .error msg => ⟨.caught msg, none, [target, origCwd]⟩
    | .ok code =>
      if code = 0 then ⟨.success, some (str "\n"), [target, origCwd]⟩
      else ⟨.errCode code, some (str "\n"), [target, origCwd]⟩
  else
    ⟨.caught (str "Script must be either a .py or .exe file."), none, [target, origCwd]⟩

/-! ## The merge action (`Main.runMerge`, lines 599-641) -/

/-- How a `runMerge` call ends, when no exception escapes it: an error logged
and the action aborted, the enable-only path taken, or the merge script run
with the computed order and the stdin payload handed to `runScript`. -/
inductive MergeResult where
  | logged (msg : Str)
  | enableOnly
  | ran (order : List Nat) (input_data : Str)
deriving DecidableEq, Repr

/-- `Main.runMerge` (lines 599-641).  `scriptRes` is the oracle for
`getScript` (`.error e` = it raised, which the `try` of lines 603-607 catches
and logs); `rootExists` models `os.path.exists(target_dir)`; `enableFlag`
models `"enable" in flags`.  Only the `getScript` call is inside a `try`: the
`KeyError` a failing `getModOrder` raises propagates out of `runMerge`,
modelled by the escaping `Except.error`. -/
def runMerge (scriptRes : Except Str Str) (rootExists enableFlag : Bool)
    (rootVal nameVal : Str) (rootTree : DirTree) (selection : List Str) :
    Except Str MergeResult :=
  match scriptRes with
  | .error e => .ok (.logged (str "Error: " ++ e))
  | .ok _script =>
    if !rootExists then
      .ok (.logged (str "Merge directory may have been renamed or removed: " ++ rootVal))
    else if enableFlag then .ok .enableOnly
    else
      match getModOrder rootVal nameVal rootTree selection with
      | .error k => .error k
      | .ok order => .ok (.ran order (mergeStdin order))

/-- The per-directory decision of the enable-only path of `runMerge`
(lines 622-628): a directory entry `dir` under `root` is renamed iff
`dir.upper().startswith("DISABLED")`; the new path is
`old_name[:-len(dir)] + dir[len("DISABLED"):]`. -/
def enableRenameStep (root dirName : Str) : Option (Str × Str) :=
  if startsW (upper dirName) DISABLED then
    some (root ++ sep ++ dirName,
      pySliceToNeg (root ++ sep ++ dirName) dirName.length ++ dirName.drop DISABLED.length)
  else none

/-! ## Helper lemmas -/

theorem startsW_iff (s pre : Str) : startsW s pre = true ↔ pre <+: s := by
  rw [startsW, List.isPrefixOf_iff_prefix]

/-- Every name recorded in the disabled list of a scan starts with the literal
`"DISABLED"`. -/
theorem populate_disabled_startsW (q : Str) (t : DirTree) (nm : Str)
    (h : nm ∈ (populateModLists q t).2) : DISABLED <+: nm := by
  simp only [populateModLists, List.mem_map, List.mem_filter] at h
  obtain ⟨v, ⟨-, hpre⟩, rfl⟩ := h
  exact (startsW_iff _ _).mp hpre

/-- Every name recorded in the enabled list of a scan does not start with
`"DISABLED"`, and is the untouched base name of a marker directory. -/
theorem populate_enabled_spec (q : Str) (t : DirTree) (nm : Str)
    (h : nm ∈ (populateModLists q t).1) :
    ∃ v, v ∈ walkTrace q [] t ∧ v.marker = true ∧ nm = v.dname ∧ ¬DISABLED <+: nm := by
  simp only [populateModLists, List.mem_map, List.mem_filter] at h
  obtain ⟨v, ⟨⟨hv, hm⟩, hpre⟩, rfl⟩ := h
  refine ⟨v, hv, hm, rfl, fun hc => ?_⟩
  rw [Bool.not_eq_eq_eq_not, Bool.not_true, ← Bool.not_eq_true, startsW_iff] at hpre
  exact hpre hc

/-- Every name recorded in the disabled list of a scan is the untouched base
name of a marker directory and starts with `"DISABLED"`. -/
theorem populate_disabled_spec (q : Str) (t : DirTree) (nm : Str)
    (h : nm ∈ (populateModLists q t).2) :
    ∃ v, v ∈ walkTrace q [] t ∧ v.marker = true ∧ nm = v.dname ∧ DISABLED <+: nm := by
  simp only [populateModLists, List.mem_map, List.mem_filter] at h
  obtain ⟨v, ⟨⟨hv, hm⟩, hpre⟩, rfl⟩ := h
  exact ⟨v, hv, hm, rfl, (startsW_iff _ _).mp hpre⟩

theorem prefix_eq_of_length {l₁ l₂ l₃ : List Nat} (h₁ : l₁ <+: l₃) (h₂ : l₂ <+: l₃)
    (h : l₁.length = l₂.length) : l₁ = l₂ :=
  (List.prefix_of_prefix_length_le h₁ h₂ h.le).eq_of_length h

mutual

/-- Every visit produced while walking the subtree rooted at position `pos`
has `pos` as a (possibly improper) position prefix. -/
theorem mem_walkTrace_pos (q : Str) (pos : List Nat) :
    ∀ (t : DirTree) (v : Visit), v ∈ walkTrace q pos t → pos <+: v.pos
  | .node n fs subs, v, h => by
    rw [walkTrace] at h
    rcases List.mem_cons.mp h with rfl | h
    · simp
    · split at h
      · simp at h
      · simp only [DirTree.subdirs] at h
        obtain ⟨j, _, hpre⟩ := mem_walkKids_pos q pos 0 subs v h
        exact (List.prefix_append pos [j]).trans hpre
termination_by t => sizeOf t

/-- Every visit produced while walking the siblings numbered from `i` sits
below some child position `pos ++ [j]` with `i ≤ j`. -/
theorem mem_walkKids_pos (q : Str) (pos : List Nat) (i : Nat) :
    ∀ (l : List DirTree) (v : Visit), v ∈ walkKids q pos i l →
      ∃ j, i ≤ j ∧ pos ++ [j] <+: v.pos
  | [], v, h => by rw [walkKids] at h; simp at h
  | c :: cs, v, h => by
    rw [walkKids] at h
    rcases List.mem_append.mp h with h | h
    · exact ⟨i, le_refl i, mem_walkTrace_pos _ _ c v h⟩
    · obtain ⟨j, hij, hpre⟩ := mem_walkKids_pos q pos (i + 1) cs v h
      exact ⟨j, by omega, hpre⟩
termination_by l => sizeOf l

end

mutual

/-- If a visit `v₁` of the walk found a marker, no other visit of the same
walk sits strictly below it: its position is never properly extended. -/
theorem walkTrace_no_descend (q : Str) (pos : List Nat) :
    ∀ (t : DirTree) (v₁ v₂ : Visit), v₁ ∈ walkTrace q pos t → v₂ ∈ walkTrace q pos t →
      v₁.marker = true → v₁.pos <+: v₂.pos → v₁.pos = v₂.pos
  | .node n fs subs, v₁, v₂, h₁, h₂, hm, hp => by
    rw [walkTrace] at h₁ h₂
    by_cases hf : foundMarker q (.node n fs subs) = true
    · rw [if_pos hf] at h₁ h₂
      simp only [List.mem_cons, List.not_mem_nil, or_false] at h₁ h₂
      rw [h₁, h₂]
    · rw [if_neg hf] at h₁ h₂
      rcases List.mem_cons.mp h₁ with rfl | h₁
      · simp only [Bool.not_eq_true] at hf
        simp [hf] at hm
      · simp only [DirTree.subdirs] at h₁ h₂
        rcases List.mem_cons.mp h₂ with rfl | h₂
        · obtain ⟨j, _, hpre⟩ := mem_walkKids_pos q pos 0 subs v₁ h₁
          have hl1 := hpre.length_le
          have hl2 := hp.length_le
          simp only [List.length_append, List.length_cons, List.length_nil] at hl1 hl2
          omega
        · exact walkKids_no_descend q pos 0 subs v₁ v₂ h₁ h₂ hm hp
termination_by t => sizeOf t

/-- The sibling-list version of `walkTrace_no_descend`. -/
theorem walkKids_no_descend (q : Str) (pos : List Nat) (i : Nat) :
    ∀ (l : List DirTree) (v₁ v₂ : Visit), v₁ ∈ walkKids q pos i l → v₂ ∈ walkKids q pos i l →
      v₁.marker = true → v₁.pos <+: v₂.pos → v₁.pos = v₂.pos
  | [], v₁, v₂, h₁, h₂, hm, hp => by rw [walkKids] at h₁; simp at h₁
  | c :: cs, v₁, v₂, h₁, h₂, hm, hp => by
    rw [walkKids] at h₁ h₂
    rcases List.mem_append.mp h₁ with h₁ | h₁ <;> rcases List.mem_append.mp h₂ with h₂ | h₂
    · exact walkTrace_no_descend _ _ c v₁ v₂ h₁ h₂ hm hp
    · have ha := mem_walkTrace_pos _ _ _ _ h₁
      obtain ⟨j, hij, hb⟩ := mem_walkKids_pos _ _ _ _ _ h₂
      have hc : pos ++ [i] = pos ++ [j] :=
        prefix_eq_of_length (ha.trans hp) hb (by simp)
      have : i = j := by simpa using List.append_cancel_left hc
      omega
    · obtain ⟨j, hij, ha⟩ := mem_walkKids_pos _ _ _ _ _ h₁
      have hb := mem_walkTrace_pos _ _ _ _ h₂
      have hc : pos ++ [j] = pos ++ [i] :=
        prefix_eq_of_length (ha.trans hp) hb (by simp)
      have : j = i := by simpa using List.append_cancel_left hc
      omega
    · exact walkKids_no_descend q pos (i + 1) cs v₁ v₂ h₁ h₂ hm hp
termination_by l => sizeOf l

end

/-- Every child of a non-pruned node is itself visited: the walk continues
with sibling directories. -/
theorem walkKids_child_visited (q : Str) (pos : List Nat) (i j : Nat) (l : List DirTree)
    (hj : j < l.length) : ∃ v, v ∈ walkKids q pos i l ∧ v.pos = pos ++ [i + j] := by
  induction l generalizing i j with
  | nil => simp at hj
  | cons c cs ih =>
    cases j with
    | zero =>
      refine ⟨⟨pos ++ [i], q ++ sep ++ c.name, c.name,
        foundMarker (q ++ sep ++ c.name) c⟩, ?_, by simp⟩
      rw [walkKids]
      apply List.mem_append_left
      rw [walkTrace]
      exact List.mem_cons_self _ _
    | succ j' =>
      obtain ⟨v, hv, hpos⟩ := ih (i + 1) j' (by simpa using hj)
      refine ⟨v, by rw [walkKids]; exact List.mem_append_right _ hv, ?_⟩
      rw [hpos]
      simp
      omega

/-! ## Claims -/

/-- **C3**: toggling is a self-inverse on directory names.  Disabling an
enabled mod prepends `"DISABLED"` and enabling removes the first
`len("DISABLED")` characters; every mod in the disabled partition of the scan
carries the `"DISABLED"` name prefix, and for such names (and for all enabled
names) toggling twice returns exactly the original directory name. -/
theorem toggle_self_inverse :
    (∀ q t nm, nm ∈ (populateModLists q t).2 → DISABLED <+: nm) ∧
    (∀ n : Str, toggleName (str "Disabled") (toggleName (str "Enabled") n) = n) ∧
    (∀ d : Str, DISABLED <+: d →
      toggleName (str "Enabled") (toggleName (str "Disabled") d) = d) := by
  refine ⟨populate_disabled_startsW, fun n => ?_, fun d hd => ?_⟩
  · have h1 : toggleName (str "Enabled") n = DISABLED ++ n := by
      simp [toggleName]
    rw [h1, toggleName, if_neg (by decide), List.drop_left]
  · obtain ⟨tail, rfl⟩ := hd
    have h1 : toggleName (str "Disabled") (DISABLED ++ tail) = tail := by
      rw [toggleName, if_neg (by decide), List.drop_left]
    rw [h1, toggleName, if_pos (by decide)]

/-- **C4**: the scan never descends into any subdirectory of a directory in
which it found a marker file.  First part: if a visit found a marker, no other
visit of the same walk has a position strictly below it (so none of its
descendants are visited).  Second part: the walk still continues with sibling
directories — every child of a visited non-pruned directory is itself
visited. -/
theorem scan_never_descends_into_marker_dir :
    (∀ (q : Str) (pos : List Nat) (t : DirTree) (v₁ v₂ : Visit),
        v₁ ∈ walkTrace q pos t → v₂ ∈ walkTrace q pos t → v₁.marker = true →
        v₁.pos ≠ v₂.pos → ¬v₁.pos <+: v₂.pos) ∧
    (∀ (q : Str) (pos : List Nat) (t : DirTree) (j : Nat),
        j < t.subdirs.length → foundMarker q t = false →
        ∃ v, v ∈ walkTrace q pos t ∧ v.pos = pos ++ [j]) := by
  constructor
  · intro q pos t v₁ v₂ h₁ h₂ hm hne hp
    exact hne (walkTrace_no_descend q pos t v₁ v₂ h₁ h₂ hm hp)
  · intro q pos t j hj hf
    obtain ⟨v, hv, hpos⟩ := walkKids_child_visited q pos 0 j t.subdirs hj
    refine ⟨v, ?_, by simpa using hpos⟩
    rw [walkTrace, if_neg (by simp [hf])]
    exact List.mem_cons_of_mem _ hv

theorem scan_never_descends_into_marker_dir_witness :
    (¬([0] : List Nat) <+: [1]) ∧
    (∃ v, v ∈ walkTrace (str "/GIMI/Mods") []
        (.node (str "Mods") []
          [.node (str "A") [str "mod.ini"] [.node (str "Sub") [str "x.ini"] []],
           .node (str "B") [str "b.ini"] []]) ∧ v.pos = ([] : List Nat) ++ [1]) := by
  have hw : walkTrace (str "/GIMI/Mods") []
      (.node (str "Mods") []
        [.node (str "A") [str "mod.ini"] [.node (str "Sub") [str "x.ini"] []],
         .node (str "B") [str "b.ini"] []]) =
      [⟨[], str "/GIMI/Mods", str "Mods", false⟩,
       ⟨[0], str "/GIMI/Mods/A", str "A", true⟩,
       ⟨[1], str "/GIMI/Mods/B", str "B", true⟩] := by
    simp +decide [walkTrace, walkKids, foundMarker, skipCache, hasIni, strContains, endsW,
      DirTree.name, DirTree.files, DirTree.subdirs, sep, str]
  constructor
  · exact scan_never_descends_into_marker_dir.1 (str "/GIMI/Mods") []
      (.node (str "Mods") []
        [.node (str "A") [str "mod.ini"] [.node (str "Sub") [str "x.ini"] []],
         .node (str "B") [str "b.ini"] []])
      ⟨[0], str "/GIMI/Mods/A", str "A", true⟩
      ⟨[1], str "/GIMI/Mods/B", str "B", true⟩
      (by rw [hw]; decide) (by rw [hw]; decide) (by decide) (by decide)
  · exact scan_never_descends_into_marker_dir.2 (str "/GIMI/Mods") []
      (.node (str "Mods") []
        [.node (str "A") [str "mod.ini"] [.node (str "Sub") [str "x.ini"] []],
         .node (str "B") [str "b.ini"] []])
      1 (by decide) (by decide)

theorem toggle_self_inverse_witness :
    toggleName (str "Disabled") (toggleName (str "Enabled") (str "Foo")) = str "Foo" ∧
    toggleName (str "Enabled") (toggleName (str "Disabled") (str "DISABLEDBar")) =
      str "DISABLEDBar" :=
  ⟨toggle_self_inverse.2.1 (str "Foo"),
   toggle_self_inverse.2.2 (str "DISABLEDBar") (by decide)⟩

/-- **C2** (counterexample): scanning a root containing `ModA/mod.ini` and
`DISABLED_ModB/mod.ini` records the disabled directory under its *full* base
name `"DISABLED_ModB"` — the disable prefix is *not* stripped, so the disabled
list is not `["ModB"]` as the claim states. -/
theorem populate_keeps_prefix_cex :
    populateModLists (str "/GIMI/Mods")
        (.node (str "Mods") []
          [.node (str "ModA") [str "mod.ini"] [],
           .node (str "DISABLED_ModB") [str "mod.ini"] []]) =
      ([str "ModA"], [str "DISABLED_ModB"]) ∧
    (populateModLists (str "/GIMI/Mods")
        (.node (str "Mods") []
          [.node (str "ModA") [str "mod.ini"] [],
           .node (str "DISABLED_ModB") [str "mod.ini"] []])).2 ≠ [str "ModB"] := by
  have h : populateModLists (str "/GIMI/Mods")
      (.node (str "Mods") []
        [.node (str "ModA") [str "mod.ini"] [],
         .node (str "DISABLED_ModB") [str "mod.ini"] []]) =
      ([str "ModA"], [str "DISABLED_ModB"]) := by
    simp +decide [populateModLists, walkTrace, walkKids, foundMarker, skipCache, hasIni,
      strContains, endsW, startsW, DirTree.name, DirTree.files, DirTree.subdirs, sep, str,
      DISABLED]
  exact ⟨h, by rw [h]; decide⟩

/-- **C2** (amended): the name recorded in the registry is the directory's
base name *unchanged* (the disable prefix is not stripped): every recorded
name is the `dname` of a marker visit, enabled names lack the `"DISABLED"`
prefix and disabled names carry it; the scenario yields
enabled = `["ModA"]`, disabled = `["DISABLED_ModB"]`. -/
theorem populate_records_base_names :
    (∀ q t nm, nm ∈ (populateModLists q t).1 →
      ∃ v, v ∈ walkTrace q [] t ∧ v.marker = true ∧ nm = v.dname ∧ ¬DISABLED <+: nm) ∧
    (∀ q t nm, nm ∈ (populateModLists q t).2 →
      ∃ v, v ∈ walkTrace q [] t ∧ v.marker = true ∧ nm = v.dname ∧ DISABLED <+: nm) ∧
    populateModLists (str "/GIMI/Mods")
        (.node (str "Mods") []
          [.node (str "ModA") [str "mod.ini"] [],
           .node (str "DISABLED_ModB") [str "mod.ini"] []]) =
      ([str "ModA"], [str "DISABLED_ModB"]) := by
  refine ⟨populate_enabled_spec, populate_disabled_spec, ?_⟩
  simp +decide [populateModLists, walkTrace, walkKids, foundMarker, skipCache, hasIni,
    strContains, endsW, startsW, DirTree.name, DirTree.files, DirTree.subdirs, sep, str,
    DISABLED]

theorem populate_records_base_names_witness :
    ∃ v, v ∈ walkTrace (str "/GIMI/Mods")
        []
        (.node (str "Mods") []
          [.node (str "ModA") [str "mod.ini"] [],
           .node (str "DISABLED_ModB") [str "mod.ini"] []]) ∧
      v.marker = true ∧ str "DISABLED_ModB" = v.dname ∧ DISABLED <+: str "DISABLED_ModB" := by
  apply populate_records_base_names.2.1
  have h := populate_records_base_names.2.2
  rw [h]
  decide

theorem any_key_eq_false {d : Dict} {k : Str} (h : k ∉ d.map Prod.fst) :
    d.any (fun p => p.1 == k) = false := by
  by_contra hc
  rw [Bool.not_eq_false, List.any_eq_true] at hc
  obtain ⟨p, hp, hb⟩ := hc
  exact h (List.mem_map.mpr ⟨p, hp, beq_iff_eq.mp hb⟩)

/-- Replaying a run of fresh `base_dict[k] = len(base_dict)` assignments on a
dict whose values are already `0, 1, 2, …` appends the keys in order and keeps
the values sequential. -/
theorem foldl_insertName_fresh (names : List Str) (d : Dict) (hn : names.Nodup)
    (hdisj : ∀ k ∈ names, k ∉ d.map Prod.fst)
    (hvals : d.map Prod.snd = List.range d.length) :
    (names.foldl insertName d).map Prod.snd =
        List.range (names.foldl insertName d).length ∧
    (names.foldl insertName d).map Prod.fst = d.map Prod.fst ++ names := by
  induction names generalizing d with
  | nil => exact ⟨hvals, by simp⟩
  | cons k ks ih =>
    have hfresh : k ∉ d.map Prod.fst := hdisj k (List.mem_cons_self k ks)
    have hstep : insertName d k = d ++ [(k, d.length)] := by
      rw [insertName, dictInsert, if_neg (by rw [any_key_eq_false hfresh]; simp)]
    have hvals' : (d ++ [(k, d.length)]).map Prod.snd =
        List.range (d ++ [(k, d.length)]).length := by
      simp [hvals, List.range_succ]
    have hdisj' : ∀ j ∈ ks, j ∉ (d ++ [(k, d.length)]).map Prod.fst := by
      intro j hj hcon
      simp only [List.map_append, List.mem_append, List.map_cons, List.map_nil,
        List.mem_singleton] at hcon
      rcases hcon with hcon | hcon
      · exact hdisj j (List.mem_cons_of_mem _ hj) hcon
      · exact (List.nodup_cons.mp hn).1 (hcon ▸ hj)
    obtain ⟨h1, h2⟩ := ih (d ++ [(k, d.length)]) (List.nodup_cons.mp hn).2 hdisj' hvals'
    refine ⟨by rw [List.foldl_cons, hstep]; exact h1, ?_⟩
    rw [List.foldl_cons, hstep, h2]
    simp

/-- **C7** (counterexample): the exclude token does *not* filter directory
names.  With `exclude_token = "ZZ"`, the directory `AZZB` (whose name contains
the token case-insensitively) is not skipped: its marker file `mod.ini` passes
the file filter and the directory receives base index 0, whereas the claim
says the directory is skipped. -/
theorem getModOrder_dirname_not_excluded_cex :
    baseDict (str "ZZ") (str "/W/MergeRoot")
        (.node (str "MergeRoot") [] [.node (str "AZZB") [str "mod.ini"] []]) =
      [(str "AZZB", 0)] ∧
    strContains (lower (str "AZZB")) (lower (str "ZZ")) = true ∧
    dictLookup (baseDict (str "ZZ") (str "/W/MergeRoot")
        (.node (str "MergeRoot") [] [.node (str "AZZB") [str "mod.ini"] []]))
      (str "AZZB") = some 0 := by
  have h : baseDict (str "ZZ") (str "/W/MergeRoot")
      (.node (str "MergeRoot") [] [.node (str "AZZB") [str "mod.ini"] []]) =
      [(str "AZZB", 0)] := by
    simp +decide [baseDict, orderNames, orderNamesKids, passesIni, insertName, extIsIni,
      dictInsert, strContains, lower, endsW, DirTree.name, DirTree.files, DirTree.subdirs,
      sep, str]
  refine ⟨h, by decide, ?_⟩
  rw [h]
  decide

/-- **C7** (amended): `getModOrder`'s base walk skips a *directory* iff its
lowered full path contains `"disabled"` (the `exclude_token` plays no role for
directories), skips a *file* iff its lowered name contains `"disabled"` or the
lowered `exclude_token`, and assigns each remaining mod the dictionary size at
assignment time — which yields the sequential indices `0, 1, 2, …` in walk
order whenever the assigned base names are distinct (one marker per
directory). -/
theorem getModOrder_base_walk :
    (∀ (ignore q : Str) (t : DirTree), strContains (lower q) (str "disabled") = true →
        orderNames ignore q t = orderNamesKids ignore q t.subdirs) ∧
    (∀ ignore f : Str, strContains (lower f) (str "disabled") = true ∨
        strContains (lower f) (lower ignore) = true → passesIni ignore f = false) ∧
    (∀ (ignore q : Str) (t : DirTree), (orderNames ignore q t).Nodup →
        (baseDict ignore q t).map Prod.fst = orderNames ignore q t ∧
        (baseDict ignore q t).map Prod.snd =
          List.range (baseDict ignore q t).length) := by
  refine ⟨?_, ?_, ?_⟩
  · intro ignore q t h
    rw [orderNames, if_pos h, List.nil_append]
  · intro ignore f h
    rcases h with h | h <;> simp [passesIni, h]
  · intro ignore q t hn
    obtain ⟨h1, h2⟩ := foldl_insertName_fresh (orderNames ignore q t) [] hn
      (by simp) (by simp)
    exact ⟨by rw [baseDict, h2]; rfl, by rw [baseDict]; exact h1⟩

theorem getModOrder_base_walk_witness :
    orderNames (str "merged.ini") (str "/w/DISABLEDpack")
        (.node (str "DISABLEDpack") [str "a.ini"] []) =
      orderNamesKids (str "merged.ini") (str "/w/DISABLEDpack")
        (DirTree.node (str "DISABLEDpack") [str "a.ini"] []).subdirs ∧
    passesIni (str "merged.ini") (str "xMERGED.INIx") = false ∧
    ((baseDict (str "merged.ini") (str "/W/M")
        (.node (str "M") []
          [.node (str "A") [str "a.ini"] [], .node (str "B") [str "b.ini"] []])).map
        Prod.fst =
      orderNames (str "merged.ini") (str "/W/M")
        (.node (str "M") []
          [.node (str "A") [str "a.ini"] [], .node (str "B") [str "b.ini"] []]) ∧
    (baseDict (str "merged.ini") (str "/W/M")
        (.node (str "M") []
          [.node (str "A") [str "a.ini"] [], .node (str "B") [str "b.ini"] []])).map
        Prod.snd =
      List.range (baseDict (str "merged.ini") (str "/W/M")
        (.node (str "M") []
          [.node (str "A") [str "a.ini"] [],
           .node (str "B") [str "b.ini"] []])).length) := by
  refine ⟨getModOrder_base_walk.1 _ _ _ (by decide),
    getModOrder_base_walk.2.1 _ _ (Or.inr (by decide)),
    getModOrder_base_walk.2.2 _ _ _ ?_⟩
  have h : orderNames (str "merged.ini") (str "/W/M")
      (.node (str "M") []
        [.node (str "A") [str "a.ini"] [], .node (str "B") [str "b.ini"] []]) =
      [str "A", str "B"] := by
    simp +decide [orderNames, orderNamesKids, passesIni, extIsIni, strContains, lower,
      endsW, DirTree.name, DirTree.files, DirTree.subdirs, sep, str]
  rw [h]
  decide

/-- If some selected name is missing from the base dictionary, the selection
loop raises (the first missing name is reported). -/
theorem lookupOrder_err (d : Dict) (sel : List Str) (nm : Str) (h : nm ∈ sel)
    (hl : dictLookup d nm = none) : ∃ k, lookupOrder d sel = .error k := by
  induction sel with
  | nil => simp at h
  | cons x xs ih =>
    by_cases hx : dictLookup d x = none
    · exact ⟨x, by simp only [lookupOrder, hx]⟩
    · obtain ⟨i, hi⟩ := Option.ne_none_iff_exists'.mp hx
      have hnm : nm ∈ xs := by
        rcases List.mem_cons.mp h with rfl | hmem
        · rw [hl] at hi
          exact absurd hi (by simp)
        · exact hmem
      obtain ⟨k, hk⟩ := ih hnm
      refine ⟨k, ?_⟩
      simp only [lookupOrder, hi, hk]
      rfl

/-- **C8** (counterexample): a selection naming a mod absent from the base
walk does raise a `KeyError` in `getModOrder`, but `runMerge`'s `try` wraps
only the `getScript` call (lines 603-607), so the exception escapes `runMerge`
uncaught (the model's `Except.error`) instead of being turned into a log
message. -/
theorem runMerge_keyerror_uncaught_cex :
    runMerge (.ok (str "/GIMI/Scripts/Merge/merge.py")) true false
        (str "/W/MergeDir") (str "merged.ini")
        (.node (str "MergeDir") [] [.node (str "ModA") [str "a.ini"] []])
        [str "Ghost"] = Except.error (str "Ghost") := by
  have hbd : baseDict (str "merged.ini") (str "/W/MergeDir")
      (.node (str "MergeDir") [] [.node (str "ModA") [str "a.ini"] []]) =
      [(str "ModA", 0)] := by
    simp +decide [baseDict, orderNames, orderNamesKids, passesIni, insertName, extIsIni,
      dictInsert, strContains, lower, endsW, DirTree.name, DirTree.files, DirTree.subdirs,
      sep, str]
  have h1 : getModOrder (str "/W/MergeDir") (str "merged.ini")
      (.node (str "MergeDir") [] [.node (str "ModA") [str "a.ini"] []])
      [str "Ghost"] = Except.error (str "Ghost") := by
    rw [getModOrder, hbd]
    simp +decide [lookupOrder, dictLookup, str]
  simp [runMerge, h1]

/-- **C8** (amended): when the selection contains a name with no base index,
the merge-order computation fails with a `LookupError` (`KeyError`), but
contrary to the propagation policy this exception is *not* caught at the
boundary of `runMerge` — only `getScript` failures are caught there — so it
propagates uncaught out of the merge action. -/
theorem runMerge_keyerror_uncaught (s rootVal nameVal : Str) (t : DirTree)
    (sel : List Str) (nm : Str) (hmem : nm ∈ sel)
    (hl : dictLookup (baseDict nameVal rootVal t) nm = none) :
    (∃ k, getModOrder rootVal nameVal t sel = Except.error k) ∧
    (∃ k, runMerge (.ok s) true false rootVal nameVal t sel = Except.error k) := by
  obtain ⟨k, hk⟩ := lookupOrder_err _ sel nm hmem hl
  have hgmo : getModOrder rootVal nameVal t sel = Except.error k := by
    rw [getModOrder]
    exact hk
  exact ⟨⟨k, hgmo⟩, ⟨k, by simp [runMerge, hgmo]⟩⟩

theorem runMerge_keyerror_uncaught_witness :
    (∃ k, getModOrder (str "/W/MergeDir") (str "merged.ini")
        (.node (str "MergeDir") [] [.node (str "ModA") [str "a.ini"] []])
        [str "Ghost"] = Except.error k) ∧
    (∃ k, runMerge (.ok (str "/GIMI/Scripts/Merge/merge.py")) true false
        (str "/W/MergeDir") (str "merged.ini")
        (.node (str "MergeDir") [] [.node (str "ModA") [str "a.ini"] []])
        [str "Ghost"] = Except.error k) := by
  apply runMerge_keyerror_uncaught (str "/GIMI/Scripts/Merge/merge.py")
    (str "/W/MergeDir") (str "merged.ini")
    (.node (str "MergeDir") [] [.node (str "ModA") [str "a.ini"] []])
    [str "Ghost"] (str "Ghost") (by decide)
  have hbd : baseDict (str "merged.ini") (str "/W/MergeDir")
      (.node (str "MergeDir") [] [.node (str "ModA") [str "a.ini"] []]) =
      [(str "ModA", 0)] := by
    simp +decide [baseDict, orderNames, orderNamesKids, passesIni, insertName, extIsIni,
      dictInsert, strContains, lower, endsW, DirTree.name, DirTree.files, DirTree.subdirs,
      sep, str]
  rw [hbd]
  decide

/-- **C10**: disable-prefix matching is inconsistent.  The scan
(`populateModLists`) classifies `disabled_Foo` as *enabled* because
`startswith("DISABLED")` is case-sensitive, while the enable-only merge path
(`runMerge` lines 622-628) matches it case-insensitively via
`dir.upper().startswith("DISABLED")` and renames it (dropping the first eight
characters, yielding `_Foo`). -/
theorem disable_prefix_matching_inconsistent :
    populateModLists (str "/GIMI/Mods")
        (.node (str "Mods") [] [.node (str "disabled_Foo") [str "mod.ini"] []]) =
      ([str "disabled_Foo"], []) ∧
    startsW (str "disabled_Foo") DISABLED = false ∧
    enableRenameStep (str "/GIMI/Mods") (str "disabled_Foo") =
      some (str "/GIMI/Mods/disabled_Foo", str "/GIMI/Mods/_Foo") := by
  refine ⟨?_, by decide, by decide⟩
  simp +decide [populateModLists, walkTrace, walkKids, foundMarker, skipCache, hasIni,
    strContains, endsW, startsW, DirTree.name, DirTree.files, DirTree.subdirs, sep, str,
    DISABLED]

theorem infix_append_left {l L : Str} (pre : Str) (h : l <:+: L) : l <:+: pre ++ L := by
  obtain ⟨s, t, rfl⟩ := h
  exact ⟨pre ++ s, t, by simp⟩

/-- The source path is contained in the rendered `OSError` message. -/
theorem src_infix_renderOSErr (cause src dst : Str) : src <:+: renderOSErr cause src dst :=
  ⟨cause ++ str ": '", str "' -> '" ++ dst ++ str "'", by simp [renderOSErr]⟩

/-- The cause is contained in the rendered `OSError` message. -/
theorem cause_infix_renderOSErr (cause src dst : Str) : cause <:+: renderOSErr cause src dst :=
  ⟨[], str ": '" ++ src ++ str "' -> '" ++ dst ++ str "'", by simp [renderOSErr]⟩

/-- **C5**: per-item failure isolation of `moveMods`.  If the rename of one
selected mod's directory fails, that mod's registry entry is left unchanged
(the source and target lists are untouched), exactly one error entry is
appended to the log and its text contains both the underlying cause and the
mod's name (the `OSError` message carries the source path, which contains the
mod's name), and the loop continues: processing the remaining selected items
proceeds from this state exactly as it would for them alone. -/
theorem moveMods_rename_failure (status : Str) (find : Str → Option Str)
    (ren : Str → Str → Option Str) (st : MoveState) (item : Str) (rest : List Str)
    (mod_dir cause : Str)
    (hf : find item = some mod_dir)
    (hr : ren mod_dir (destPath mod_dir item (toggleName status item)) = some cause)
    (hin : item <:+: mod_dir) :
    (processItem status find ren st item).source = st.source ∧
    (processItem status find ren st item).target = st.target ∧
    (processItem status find ren st item).log = st.log ++
      [.error (str "Error: " ++
        renderOSErr cause mod_dir (destPath mod_dir item (toggleName status item)))] ∧
    cause <:+: str "Error: " ++
      renderOSErr cause mod_dir (destPath mod_dir item (toggleName status item)) ∧
    item <:+: str "Error: " ++
      renderOSErr cause mod_dir (destPath mod_dir item (toggleName status item)) ∧
    moveMods status find ren (item :: rest) st =
      moveMods status find ren rest (processItem status find ren st item) := by
  refine ⟨?_, ?_, ?_, ?_, ?_, rfl⟩
  · simp only [processItem, hf, hr]
  · simp only [processItem, hf, hr]
  · simp only [processItem, hf, hr]
  · exact infix_append_left _ (cause_infix_renderOSErr _ _ _)
  · exact infix_append_left _ (hin.trans (src_infix_renderOSErr _ _ _))

theorem moveMods_rename_failure_witness :
    (processItem (str "Enabled") (fun _ => some (str "/GIMI/Mods/Foo"))
        (fun _ _ => some (str "[Errno 13] Permission denied"))
        ⟨[str "Foo", str "Bar"], [], []⟩ (str "Foo")).source = [str "Foo", str "Bar"] ∧
    (processItem (str "Enabled") (fun _ => some (str "/GIMI/Mods/Foo"))
        (fun _ _ => some (str "[Errno 13] Permission denied"))
        ⟨[str "Foo", str "Bar"], [], []⟩ (str "Foo")).target = [] ∧
    (processItem (str "Enabled") (fun _ => some (str "/GIMI/Mods/Foo"))
        (fun _ _ => some (str "[Errno 13] Permission denied"))
        ⟨[str "Foo", str "Bar"], [], []⟩ (str "Foo")).log = [] ++
      [.error (str "Error: " ++
        renderOSErr (str "[Errno 13] Permission denied") (str "/GIMI/Mods/Foo")
          (destPath (str "/GIMI/Mods/Foo") (str "Foo")
            (toggleName (str "Enabled") (str "Foo"))))] ∧
    str "[Errno 13] Permission denied" <:+: str "Error: " ++
      renderOSErr (str "[Errno 13] Permission denied") (str "/GIMI/Mods/Foo")
        (destPath (str "/GIMI/Mods/Foo") (str "Foo")
          (toggleName (str "Enabled") (str "Foo"))) ∧
    str "Foo" <:+: str "Error: " ++
      renderOSErr (str "[Errno 13] Permission denied") (str "/GIMI/Mods/Foo")
        (destPath (str "/GIMI/Mods/Foo") (str "Foo")
          (toggleName (str "Enabled") (str "Foo"))) ∧
    moveMods (str "Enabled") (fun _ => some (str "/GIMI/Mods/Foo"))
        (fun _ _ => some (str "[Errno 13] Permission denied"))
        [str "Foo", str "Bar"] ⟨[str "Foo", str "Bar"], [], []⟩ =
      moveMods (str "Enabled") (fun _ => some (str "/GIMI/Mods/Foo"))
        (fun _ _ => some (str "[Errno 13] Permission denied"))
        [str "Bar"]
        (processItem (str "Enabled") (fun _ => some (str "/GIMI/Mods/Foo"))
          (fun _ _ => some (str "[Errno 13] Permission denied"))
          ⟨[str "Foo", str "Bar"], [], []⟩ (str "Foo")) :=
  moveMods_rename_failure (str "Enabled") (fun _ => some (str "/GIMI/Mods/Foo"))
    (fun _ _ => some (str "[Errno 13] Permission denied"))
    ⟨[str "Foo", str "Bar"], [], []⟩ (str "Foo") [str "Bar"]
    (str "/GIMI/Mods/Foo") (str "[Errno 13] Permission denied")
    rfl rfl (by decide)

/-- **C6**: after a successful rename in `moveMods`, the `NameMismatch`
warning (line 373) is in the log if and only if it was already there or the
resulting directory's base name (`os.path.basename(dest_path)`) differs from
the expected computed name; and no reconciliation is attempted — the item is
moved between the lists exactly the same way whether or not the names
mismatch. -/
theorem moveMods_name_mismatch_warning (status : Str) (find : Str → Option Str)
    (ren : Str → Str → Option Str) (st : MoveState) (item mod_dir : Str)
    (hf : find item = some mod_dir)
    (hr : ren mod_dir (destPath mod_dir item (toggleName status item)) = none) :
    (LogEntry.warn nameMismatchWarn ∈ (processItem status find ren st item).log ↔
      (LogEntry.warn nameMismatchWarn ∈ st.log ∨
        toggleName status item ≠ basename (destPath mod_dir item (toggleName status item)))) ∧
    (processItem status find ren st item).source = st.source.erase item ∧
    (processItem status find ren st item).target =
      st.target ++ [toggleName status item] := by
  refine ⟨?_, ?_, ?_⟩
  · simp only [processItem, hf, hr]
    by_cases hmm : toggleName status item =
        basename (destPath mod_dir item (toggleName status item))
    · rw [if_neg (not_not_intro hmm)]
      constructor
      · intro h
        rcases List.mem_append.mp h with h | h
        · rcases List.mem_append.mp h with h | h
          · exact Or.inl h
          · simp at h
        · simp at h
      · intro h
        rcases h with h | h
        · exact List.mem_append_left _ (List.mem_append_left _ h)
        · exact absurd h (not_not_intro hmm)
    · rw [if_pos hmm]
      constructor
      · intro _
        exact Or.inr hmm
      · intro _
        exact List.mem_append_right _ (by simp)
  · simp only [processItem, hf, hr]
  · simp only [processItem, hf, hr]

theorem moveMods_name_mismatch_warning_witness :
    (LogEntry.warn nameMismatchWarn ∈
      (processItem (str "Enabled") (fun _ => some (str "/GIMI/Mods/DISABLEDFoo"))
        (fun _ _ => none) ⟨[str "Foo"], [], []⟩ (str "Foo")).log ↔
      (LogEntry.warn nameMismatchWarn ∈ ([] : List LogEntry) ∨
        toggleName (str "Enabled") (str "Foo") ≠
          basename (destPath (str "/GIMI/Mods/DISABLEDFoo") (str "Foo")
            (toggleName (str "Enabled") (str "Foo"))))) ∧
    (processItem (str "Enabled") (fun _ => some (str "/GIMI/Mods/DISABLEDFoo"))
      (fun _ _ => none) ⟨[str "Foo"], [], []⟩ (str "Foo")).source =
        ([str "Foo"].erase (str "Foo")) ∧
    (processItem (str "Enabled") (fun _ => some (str "/GIMI/Mods/DISABLEDFoo"))
      (fun _ _ => none) ⟨[str "Foo"], [], []⟩ (str "Foo")).target =
        [] ++ [toggleName (str "Enabled") (str "Foo")] :=
  moveMods_name_mismatch_warning (str "Enabled") (fun _ => some (str "/GIMI/Mods/DISABLEDFoo"))
    (fun _ _ => none) ⟨[str "Foo"], [], []⟩ (str "Foo") (str "/GIMI/Mods/DISABLEDFoo")
    rfl rfl

/-- **C9**: `runScript` changes the working directory to the target only for
the duration of the invocation: on every exit path — validation failure,
successful run, non-zero exit code, invalid extension, or a raised exception —
the sequence of `os.chdir` calls ends with the original working directory, so
the working directory is always restored. -/
theorem runScript_cwd_restored :
    ∀ (isFile isDir : Str → Bool) (exec : Except Str Int) (origCwd script target : Str)
      (args : List Str) (input_data : Str),
      ((runScript isFile isDir exec origCwd script target args input_data).chdirs =
          [origCwd] ∨
        (runScript isFile isDir exec origCwd script target args input_data).chdirs =
          [target, origCwd]) ∧
      (runScript isFile isDir exec origCwd script target args input_data).finalCwd origCwd =
        origCwd := by
  intro isFile isDir exec origCwd script target args input_data
  unfold runScript RunScriptResult.finalCwd
  rcases exec with msg | code
  · by_cases h1 : isFile script <;> by_cases h2 : isDir target <;>
      by_cases h3 : endsW script (str ".py") || endsW script (str ".exe") <;>
      simp [h1, h2, h3, List.getLastD]
  · by_cases h1 : isFile script <;> by_cases h2 : isDir target <;>
      by_cases h3 : endsW script (str ".py") || endsW script (str ".exe") <;>
      by_cases h4 : code = 0 <;> simp [h1, h2, h3, h4, List.getLastD]

/-- **C1**: the stdin actually delivered by `runScript`.  Line 507 of the code
rebinds `input_data = "\n"` before `proc.communicate(input=input_data)`, so
whenever a subprocess is spawned it receives exactly one newline — in
particular the merge payload `"\n" + " ".join(map(str, mod_order)) + "\n"`
built by `runMerge` (e.g. `"\n0 1\n"` for order `[0, 1]`) never reaches the
merge script, contradicting the specified stdin contract. -/
theorem runScript_stdin_overridden :
    (∀ (isFile isDir : Str → Bool) (exec : Except Str Int)
        (origCwd script target : Str) (args : List Str) (input_data : Str),
        (runScript isFile isDir exec origCwd script target args input_data).stdinSent = none ∨
        (runScript isFile isDir exec origCwd script target args input_data).stdinSent =
          some (str "\n")) ∧
    mergeStdin [0, 1] = str "\n0 1\n" ∧
    str "\n0 1\n" ≠ str "\n" ∧
    (runScript (fun _ => true) (fun _ => true) (Except.ok 0) (str "/GIMI")
        (str "/GIMI/Scripts/Merge/merge.py") (str "/W/MergeDir") []
        (mergeStdin [0, 1])).stdinSent = some (str "\n") := by
  refine ⟨?_, by decide, by decide, by decide⟩
  intro isFile isDir exec origCwd script target args input_data
  unfold runScript
  rcases exec with msg | code
  · by_cases h1 : isFile script <;> by_cases h2 : isDir target <;>
      by_cases h3 : endsW script (str ".py") || endsW script (str ".exe") <;>
      simp [h1, h2, h3]
  · by_cases h1 : isFile script <;> by_cases h2 : isDir target <;>
      by_cases h3 : endsW script (str ".py") || endsW script (str ".exe") <;>
      by_cases h4 : code = 0 <;> simp [h1, h2, h3, h4]

end GIMI
